import Mathlib

/-!
# Verification of the random-number-generator widget

Shallow embedding of `src/src/App.tsx` (the canonical variant of the widget).
The component keeps its state in React hooks (`min`, `max`, `timer`,
`audioEnabled`, `currentNumber`, `isGenerating`, `isAutoGenerating`,
`lastTrigger`), a ref `stateRef` that mirrors the live state for use inside
timeout callbacks, and a `useEffect` whose dependency list is `[timer,
lastTrigger, generateNumber, isAutoGenerating]` and which owns the single
pending `setTimeout`.

Numeric inputs may be empty (`''`), modelled as `Option Int` (min/max, parsed
by `parseInt`) and `Option ℚ` (delay, parsed by `parseFloat`, fractional values
allowed).  `Math.random()`-based draws are modelled by an explicit list of
natural numbers, each draw `r` standing for `Math.floor(Math.random() * (hi -
lo + 1))`, so the drawn value is `lo + r`; the uniform-source contract `r <
hi - lo + 1` is a hypothesis where a theorem needs it.  The do-while rejection
loop consumes the list; an exhausted list models the probability-zero
divergence of the loop and yields `none`.

React semantics captured by `step`: an event (user action or timeout callback)
runs its handler, the batched state updates commit, and then the timer effect
re-runs if and only if one of its dependencies `timer`, `lastTrigger`,
`isAutoGenerating` changed (the `generateNumber` callback is wrapped in
`useCallback` with an empty dependency list and never changes identity);
re-running first clears the pending timeout (the cleanup's `clearTimeout`) and
then reschedules.  The inner `setIsAutoGenerating(false)` of the effect's
`currentTimer <= 0` branch triggers one further, idempotent effect run, so the
one-shot `runTimerEffect` below already is the fixed point.  Time is
rational-valued milliseconds (`setTimeout` receives `currentTimer * 1000`).
The wake-lock adapter holds no widget state and is not modelled.
-/

/-- `typeof v === 'number' ? v : 0` applied to the min/max fields
(`App.tsx` lines 103-104). -/
def fieldVal (v : Option Int) : Int := v.getD 0

/-- `actualMin = Math.min(currentMin, currentMax)` (`App.tsx` line 107). -/
def normLo (a b : Option Int) : Int := Min.min (fieldVal a) (fieldVal b)

/-- `actualMax = Math.max(currentMin, currentMax)` (`App.tsx` line 108). -/
def normHi (a b : Option Int) : Int := Max.max (fieldVal a) (fieldVal b)

/-- The do-while rejection loop of `generateNumber` (`App.tsx` lines 114-116):
draw `randomNum = lo + r`, repeat while `randomNum === prevNum`.  A comparison
with a `null` previous value is `false` in JS, so the loop exits on the first
draw when `prev = none`. -/
def drawLoop (lo : Int) (prev : Option Int) : List Nat → Option Int
  | [] => none
  | r :: rs =>
    if prev = some (lo + (r : Int)) then drawLoop lo prev rs
    else some (lo + (r : Int))

/-- The number computation of `generateNumber` (`App.tsx` lines 101-117):
normalize the bounds, return the bound itself when the range is degenerate,
otherwise run the rejection loop against the previous number. -/
def generate (a b : Option Int) (prev : Option Int) (draws : List Nat) :
    Option Int :=
  let lo := normLo a b
  let hi := normHi a b
  if lo = hi then some lo else drawLoop lo prev draws

/-- The component state of `App.tsx`.  `pending` is the deadline of the single
outstanding `setTimeout` owned by the timer effect (`App.tsx` lines 132-147),
or `none` when no timeout is pending.  `log` collects the `console.error`
diagnostics of the audio adapter. -/
structure WState where
  min : Option Int
  max : Option Int
  timer : Option ℚ
  audioEnabled : Bool
  currentNumber : Option Int
  isGenerating : Bool
  isAutoGenerating : Bool
  lastTrigger : ℚ
  pending : Option ℚ
  log : List String
  deriving DecidableEq, Repr

/-- The mount-time state (`App.tsx` lines 35-42): min=1, max=10, delay=0,
audio on, no number yet; the effect's first run leaves no timeout pending. -/
def initState (τ : ℚ) : WState :=
  { min := some 1, max := some 10, timer := some 0, audioEnabled := true
    currentNumber := none, isGenerating := false, isAutoGenerating := false
    lastTrigger := τ, pending := none, log := [] }

/-- Events the widget reacts to.  Generation events carry the draw list their
rejection loop consumes and the outcome `audioOk` of the platform audio call. -/
inductive Event where
  | setMin (v : Option Int)
  | setMax (v : Option Int)
  | setTimer (v : Option ℚ)
  | toggleAudio
  | manualGenerate (draws : List Nat) (audioOk : Bool)
  | stop
  | timerFire (draws : List Nat) (audioOk : Bool)
  | visibilityChange (hidden : Bool)
  | pulseEnd
  deriving Repr

/-- `playBeep` (`App.tsx` lines 7-32): its whole body sits in a `try` whose
`catch` logs `"Audio playback failed"`; the second component records whether an
exception escapes the call — by construction of the catch-all it never does. -/
def playBeep (audioOk : Bool) (log : List String) : List String × Bool :=
  if audioOk then (log, false) else (log ++ ["Audio playback failed"], false)

/-- `generateNumber` (`App.tsx` lines 98-129) as a state transformer.  It reads
min, max, audioEnabled and the previous number from `stateRef`, which the sync
effect (lines 94-96) keeps equal to the live state.  When the rejection loop
exhausts its draws (the measure-zero divergence) the call never returns, no
render commits, and the state is unchanged. -/
def genStep (s : WState) (draws : List Nat) (audioOk : Bool) (τ : ℚ) : WState :=
  match generate s.min s.max s.currentNumber draws with
  | none => s
  | some v =>
    let afterBeep := if s.audioEnabled then playBeep audioOk s.log else (s.log, false)
    if afterBeep.2 then s
    else
      { s with isGenerating := true, currentNumber := some v
               log := afterBeep.1, lastTrigger := τ }

/-- Body of the timer effect (`App.tsx` lines 132-147), run at time `τ`:
cleanup has already cleared any pending timeout; with a non-positive delay it
forces auto-mode off, otherwise while auto-mode is on it schedules the next
fire `timer * 1000` milliseconds from now. -/
def runTimerEffect (s : WState) (τ : ℚ) : WState :=
  let t := s.timer.getD 0
  if t ≤ 0 then { s with isAutoGenerating := false, pending := none }
  else if s.isAutoGenerating then { s with pending := some (τ + t * 1000) }
  else { s with pending := none }

/-- React re-runs the timer effect exactly when one of its dependencies
changed between the previous committed state `old` and the new one. -/
def applyEffects (old new : WState) (τ : ℚ) : WState :=
  if new.timer = old.timer ∧ new.lastTrigger = old.lastTrigger ∧
      new.isAutoGenerating = old.isAutoGenerating
  then new else runTimerEffect new τ

/-- One step of the widget: handle the event at time `τ`, commit, run effects.
`timerFire` is the pending timeout's callback: it can only happen when a
timeout is pending and its deadline is `τ`; firing consumes the timeout.
`handleManualGenerate` is `App.tsx` lines 149-155, `handleStopGenerating`
lines 157-159, `handleVisibilityChange` lines 76-82 (the canonical variant
force-stops auto-mode when the document becomes hidden).  `pulseEnd` is the
cosmetic 150 ms `setIsGenerating(false)` timeout of line 128. -/
def step (s : WState) (e : Event) (τ : ℚ) : WState :=
  let s' := match e with
    | .setMin v => { s with min := v }
    | .setMax v => { s with max := v }
    | .setTimer v => { s with timer := v }
    | .toggleAudio => { s with audioEnabled := ¬s.audioEnabled }
    | .manualGenerate draws audioOk =>
      let s1 := if 0 < s.timer.getD 0 ∧ ¬s.isAutoGenerating
                then { s with isAutoGenerating := true } else s
      genStep s1 draws audioOk τ
    | .stop => { s with isAutoGenerating := false }
    | .timerFire draws audioOk =>
      match s.pending with
      | some dl =>
        if τ = dl then genStep { s with pending := none } draws audioOk τ else s
      | none => s
    | .visibilityChange hidden =>
      if hidden then { s with isAutoGenerating := false } else s
    | .pulseEnd => { s with isGenerating := false }
  applyEffects s s' τ

/-- A run of the widget: fold `step` over a list of timed events. -/
def run (s : WState) : List (Event × ℚ) → WState
  | [] => s
  | (e, τ) :: rest => run (step s e τ) rest

/-- Whether processing event `e` at time `τ` in state `s` triggers an
automatic generation: exactly a `timerFire` whose deadline is due. -/
def firesAuto (s : WState) (e : Event) (τ : ℚ) : Bool :=
  match e, s.pending with
  | .timerFire _ _, some dl => τ = dl
  | _, _ => false

/-- No automatic generation occurs anywhere along the given run. -/
def neverFires (s : WState) : List (Event × ℚ) → Bool
  | [] => true
  | (e, τ) :: rest => !firesAuto s e τ && neverFires (step s e τ) rest

def isManualGen : Event → Bool
  | .manualGenerate _ _ => true
  | _ => false

/-- Machine invariant: a pending timeout exists only while auto-mode is on
with a positive delay. -/
def Invb (s : WState) : Bool :=
  match s.pending with
  | none => true
  | some _ => s.isAutoGenerating && decide (0 < s.timer.getD 0)

/-- No pending timeout and auto-mode off. -/
def quiet (s : WState) : Bool := !s.isAutoGenerating && s.pending.isNone

def drawsOf : Event → List Nat
  | .manualGenerate draws _ => draws
  | .timerFire draws _ => draws
  | _ => []

/-- Everything in the widget state except the diagnostic log. -/
def coreView (s : WState) :=
  (s.min, s.max, s.timer, s.audioEnabled, s.currentNumber, s.isGenerating,
    s.isAutoGenerating, s.lastTrigger, s.pending)

/-- A concrete run: set the delay to 5 s, generate at time 0 (auto-mode
starts), then change the delay to 3 s one second in. -/
def c6state : WState :=
  run (initState 0)
    [(.setTimer (some 5), 0), (.manualGenerate [0] true, 0), (.setTimer (some 3), 1000)]

/-- A concrete auto-mode state: delay 2 s, a fire pending at time 5,
previously displayed number 4. -/
def exampleAuto : WState :=
  { initState 0 with timer := some 2, isAutoGenerating := true,
                     pending := some 5, currentNumber := some 4 }

/-!
## Lemmas about the pure generator
-/

theorem drawLoop_ne_prev (lo : Int) (prev : Option Int) (draws : List Nat)
    (v : Int) (h : drawLoop lo prev draws = some v) : prev ≠ some v := by
  induction draws with
  | nil => simp [drawLoop] at h
  | cons r rs ih =>
    by_cases hc : prev = some (lo + (r : Int))
    · rw [drawLoop, if_pos hc] at h
      exact ih h
    · rw [drawLoop, if_neg hc] at h
      injection h with h'
      rw [← h']
      exact hc

theorem drawLoop_range (lo hi : Int) (prev : Option Int) (draws : List Nat)
    (v : Int) (hd : ∀ r ∈ draws, (r : Int) ≤ hi - lo)
    (h : drawLoop lo prev draws = some v) : lo ≤ v ∧ v ≤ hi := by
  induction draws with
  | nil => simp [drawLoop] at h
  | cons r rs ih =>
    by_cases hc : prev = some (lo + (r : Int))
    · rw [drawLoop, if_pos hc] at h
      exact ih (fun x hx => hd x (List.mem_cons_of_mem r hx)) h
    · rw [drawLoop, if_neg hc] at h
      injection h with h'
      have hr : (r : Int) ≤ hi - lo := hd r (List.mem_cons_self r rs)
      constructor
      · omega
      · omega

theorem generate_range (a b : Option Int) (prev : Option Int)
    (draws : List Nat) (v : Int)
    (hd : ∀ r ∈ draws, (r : Int) < normHi a b - normLo a b + 1)
    (h : generate a b prev draws = some v) :
    normLo a b ≤ v ∧ v ≤ normHi a b := by
  unfold generate at h
  by_cases hc : normLo a b = normHi a b
  · rw [if_pos hc] at h
    injection h with h'
    omega
  · rw [if_neg hc] at h
    exact drawLoop_range (normLo a b) (normHi a b) prev draws v
      (fun r hr => by have := hd r hr; omega) h

theorem generate_ne_prev (a b : Option Int) (p : Int) (draws : List Nat)
    (v : Int) (hlt : normLo a b < normHi a b)
    (h : generate a b (some p) draws = some v) : v ≠ p := by
  unfold generate at h
  rw [if_neg (by omega)] at h
  have := drawLoop_ne_prev (normLo a b) (some p) draws v h
  intro hvp
  exact this (by rw [hvp])

theorem generate_degenerate (a b : Option Int) (prev : Option Int)
    (draws : List Nat) (heq : normLo a b = normHi a b) :
    generate a b prev draws = some (normLo a b) := by
  unfold generate
  rw [if_pos heq]

/-!
## Structural lemmas about the machine
-/

theorem playBeep_snd (audioOk : Bool) (log : List String) :
    (playBeep audioOk log).2 = false := by
  unfold playBeep
  split <;> rfl

/-- `genStep` in closed form: the audio adapter never throws, so a successful
generation always commits its number, its timestamp and its pulse. -/
theorem genStep_eq (s : WState) (draws : List Nat) (audioOk : Bool) (τ : ℚ) :
    genStep s draws audioOk τ =
      match generate s.min s.max s.currentNumber draws with
      | none => s
      | some v =>
        { s with isGenerating := true, currentNumber := some v
                 log := if s.audioEnabled && !audioOk
                        then s.log ++ ["Audio playback failed"] else s.log
                 lastTrigger := τ } := by
  unfold genStep playBeep
  cases generate s.min s.max s.currentNumber draws <;>
    cases s.audioEnabled <;> cases audioOk <;> simp

theorem runTimerEffect_eq (s : WState) (τ : ℚ) :
    runTimerEffect s τ =
      { s with
          isAutoGenerating := if s.timer.getD 0 ≤ 0 then false
                              else s.isAutoGenerating
          pending := if s.timer.getD 0 ≤ 0 then none
                     else if s.isAutoGenerating
                          then some (τ + s.timer.getD 0 * 1000) else none } := by
  unfold runTimerEffect
  by_cases h : s.timer.getD 0 ≤ 0
  · simp [h]
  · by_cases hA : s.isAutoGenerating <;> simp [h, hA]

theorem applyEffects_min (old new : WState) (τ : ℚ) :
    (applyEffects old new τ).min = new.min := by
  unfold applyEffects
  split
  · rfl
  · rw [runTimerEffect_eq]

theorem applyEffects_max (old new : WState) (τ : ℚ) :
    (applyEffects old new τ).max = new.max := by
  unfold applyEffects
  split
  · rfl
  · rw [runTimerEffect_eq]

theorem applyEffects_timer (old new : WState) (τ : ℚ) :
    (applyEffects old new τ).timer = new.timer := by
  unfold applyEffects
  split
  · rfl
  · rw [runTimerEffect_eq]

theorem applyEffects_audioEnabled (old new : WState) (τ : ℚ) :
    (applyEffects old new τ).audioEnabled = new.audioEnabled := by
  unfold applyEffects
  split
  · rfl
  · rw [runTimerEffect_eq]

theorem applyEffects_currentNumber (old new : WState) (τ : ℚ) :
    (applyEffects old new τ).currentNumber = new.currentNumber := by
  unfold applyEffects
  split
  · rfl
  · rw [runTimerEffect_eq]

theorem applyEffects_isGenerating (old new : WState) (τ : ℚ) :
    (applyEffects old new τ).isGenerating = new.isGenerating := by
  unfold applyEffects
  split
  · rfl
  · rw [runTimerEffect_eq]

theorem applyEffects_lastTrigger (old new : WState) (τ : ℚ) :
    (applyEffects old new τ).lastTrigger = new.lastTrigger := by
  unfold applyEffects
  split
  · rfl
  · rw [runTimerEffect_eq]

theorem applyEffects_log (old new : WState) (τ : ℚ) :
    (applyEffects old new τ).log = new.log := by
  unfold applyEffects
  split
  · rfl
  · rw [runTimerEffect_eq]

theorem applyEffects_self (s : WState) (τ : ℚ) : applyEffects s s τ = s := by
  unfold applyEffects
  rw [if_pos ⟨rfl, rfl, rfl⟩]

theorem genStep_min (s : WState) (d : List Nat) (ok : Bool) (τ : ℚ) :
    (genStep s d ok τ).min = s.min := by
  rw [genStep_eq]
  cases generate s.min s.max s.currentNumber d <;> rfl

theorem genStep_max (s : WState) (d : List Nat) (ok : Bool) (τ : ℚ) :
    (genStep s d ok τ).max = s.max := by
  rw [genStep_eq]
  cases generate s.min s.max s.currentNumber d <;> rfl

theorem genStep_timer (s : WState) (d : List Nat) (ok : Bool) (τ : ℚ) :
    (genStep s d ok τ).timer = s.timer := by
  rw [genStep_eq]
  cases generate s.min s.max s.currentNumber d <;> rfl

theorem genStep_auto (s : WState) (d : List Nat) (ok : Bool) (τ : ℚ) :
    (genStep s d ok τ).isAutoGenerating = s.isAutoGenerating := by
  rw [genStep_eq]
  cases generate s.min s.max s.currentNumber d <;> rfl

theorem genStep_pending (s : WState) (d : List Nat) (ok : Bool) (τ : ℚ) :
    (genStep s d ok τ).pending = s.pending := by
  rw [genStep_eq]
  cases generate s.min s.max s.currentNumber d <;> rfl

theorem genStep_currentNumber (s : WState) (d : List Nat) (ok : Bool) (τ : ℚ)
    (v : Int) (h : generate s.min s.max s.currentNumber d = some v) :
    (genStep s d ok τ).currentNumber = some v := by
  rw [genStep_eq, h]

theorem genStep_lastTrigger (s : WState) (d : List Nat) (ok : Bool) (τ : ℚ)
    (v : Int) (h : generate s.min s.max s.currentNumber d = some v) :
    (genStep s d ok τ).lastTrigger = τ := by
  rw [genStep_eq, h]

theorem genStep_of_some (s : WState) (d : List Nat) (ok : Bool) (τ : ℚ) (v : Int)
    (h : generate s.min s.max s.currentNumber d = some v) :
    genStep s d ok τ =
      { s with isGenerating := true, currentNumber := some v
               log := if s.audioEnabled && !ok
                      then s.log ++ ["Audio playback failed"] else s.log
               lastTrigger := τ } := by
  rw [genStep_eq, h]

theorem genStep_currentNumber_cases (s : WState) (d : List Nat) (ok : Bool)
    (τ : ℚ) :
    (genStep s d ok τ).currentNumber = s.currentNumber
    ∨ ∃ v, generate s.min s.max s.currentNumber d = some v
        ∧ (genStep s d ok τ).currentNumber = some v := by
  rw [genStep_eq]
  cases hg : generate s.min s.max s.currentNumber d with
  | none => left; rfl
  | some v => right; exact ⟨v, rfl, rfl⟩

theorem step_timerFire_none (s : WState) (draws : List Nat) (ok : Bool) (τ : ℚ)
    (hp : s.pending = none) : step s (.timerFire draws ok) τ = s := by
  simp only [step, hp]
  exact applyEffects_self s τ

theorem step_timerFire_miss (s : WState) (draws : List Nat) (ok : Bool)
    (τ dl : ℚ) (hp : s.pending = some dl) (hne : τ ≠ dl) :
    step s (.timerFire draws ok) τ = s := by
  simp only [step, hp]
  rw [if_neg hne]
  exact applyEffects_self s τ

theorem step_timerFire_hit (s : WState) (draws : List Nat) (ok : Bool)
    (τ dl : ℚ) (hp : s.pending = some dl) (heq : τ = dl) :
    step s (.timerFire draws ok) τ =
      applyEffects s (genStep { s with pending := none } draws ok τ) τ := by
  simp only [step, hp]
  rw [if_pos heq]

theorem step_manual_currentNumber (s : WState) (τ : ℚ) (draws : List Nat)
    (ok : Bool) (v : Int)
    (hgen : generate s.min s.max s.currentNumber draws = some v) :
    (step s (.manualGenerate draws ok) τ).currentNumber = some v := by
  simp only [step]
  rw [applyEffects_currentNumber]
  by_cases hc : 0 < s.timer.getD 0 ∧ ¬s.isAutoGenerating
  · rw [if_pos hc]
    exact genStep_currentNumber _ draws ok τ v hgen
  · rw [if_neg hc]
    exact genStep_currentNumber _ draws ok τ v hgen

theorem step_fire_currentNumber (s : WState) (dl : ℚ) (draws : List Nat)
    (ok : Bool) (v : Int) (hP : s.pending = some dl)
    (hgen : generate s.min s.max s.currentNumber draws = some v) :
    (step s (.timerFire draws ok) dl).currentNumber = some v := by
  rw [step_timerFire_hit s draws ok dl dl hP rfl]
  rw [applyEffects_currentNumber]
  exact genStep_currentNumber _ draws ok dl v hgen

theorem genStep_ok_core (s : WState) (d : List Nat) (τ : ℚ) :
    coreView (genStep s d false τ) = coreView (genStep s d true τ) := by
  rw [genStep_eq, genStep_eq]
  cases generate s.min s.max s.currentNumber d <;> rfl

theorem applyEffects_core_congr (old a b : WState) (τ : ℚ)
    (h : coreView a = coreView b) :
    coreView (applyEffects old a τ) = coreView (applyEffects old b τ) := by
  simp only [coreView, Prod.mk.injEq] at h
  obtain ⟨h1, h2, h3, h4, h5, h6, h7, h8, h9⟩ := h
  unfold applyEffects
  by_cases hc : a.timer = old.timer ∧ a.lastTrigger = old.lastTrigger ∧
      a.isAutoGenerating = old.isAutoGenerating
  · rw [if_pos hc, if_pos (by rw [← h3, ← h8, ← h7]; exact hc)]
    simp [coreView, h1, h2, h3, h4, h5, h6, h7, h8, h9]
  · rw [if_neg hc, if_neg (by rw [← h3, ← h8, ← h7]; exact hc)]
    rw [runTimerEffect_eq, runTimerEffect_eq]
    simp [coreView, h1, h2, h3, h4, h5, h6, h7, h8, h9]

/-!
## Lemmas about quiet states and the machine invariant
-/

theorem Invb_pending (s : WState) (hI : Invb s = true) (dl : ℚ)
    (hp : s.pending = some dl) :
    s.isAutoGenerating = true ∧ 0 < s.timer.getD 0 := by
  unfold Invb at hI
  rw [hp] at hI
  simpa using hI

theorem Invb_none_of_not_auto (s : WState) (hI : Invb s = true)
    (hA : s.isAutoGenerating = false) : s.pending = none := by
  cases hp : s.pending with
  | none => rfl
  | some dl =>
      exact absurd (Invb_pending s hI dl hp).1 (by rw [hA]; exact Bool.false_ne_true)

theorem runTimerEffect_quiet_of_not_auto (s : WState) (τ : ℚ)
    (hA : s.isAutoGenerating = false) : quiet (runTimerEffect s τ) = true := by
  rw [runTimerEffect_eq]
  by_cases h : s.timer.getD 0 ≤ 0 <;> simp [quiet, h, hA]

theorem runTimerEffect_quiet_of_nonpos (s : WState) (τ : ℚ)
    (ht : s.timer.getD 0 ≤ 0) : quiet (runTimerEffect s τ) = true := by
  rw [runTimerEffect_eq]
  simp [quiet, ht]

theorem quiet_parts (s : WState) (hq : quiet s = true) :
    s.isAutoGenerating = false ∧ s.pending = none := by
  unfold quiet at hq
  constructor
  · cases h : s.isAutoGenerating
    · rfl
    · rw [h] at hq; simp at hq
  · cases h : s.pending with
    | none => rfl
    | some dl => rw [h] at hq; simp [Option.isNone] at hq

theorem applyEffects_quiet (old new : WState) (τ : ℚ)
    (hA : new.isAutoGenerating = false) (hP : new.pending = none) :
    quiet (applyEffects old new τ) = true := by
  unfold applyEffects
  split
  · simp [quiet, hA, hP]
  · exact runTimerEffect_quiet_of_not_auto new τ hA

theorem quiet_step (s : WState) (e : Event) (τ : ℚ) (hq : quiet s = true)
    (hm : isManualGen e = false) : quiet (step s e τ) = true := by
  obtain ⟨hA, hP⟩ := quiet_parts s hq
  cases e with
  | setMin w => exact applyEffects_quiet _ _ _ hA hP
  | setMax w => exact applyEffects_quiet _ _ _ hA hP
  | setTimer w => exact applyEffects_quiet _ _ _ hA hP
  | toggleAudio => exact applyEffects_quiet _ _ _ hA hP
  | manualGenerate d ok => exact absurd hm (by simp [isManualGen])
  | stop => exact applyEffects_quiet _ _ _ rfl hP
  | timerFire d ok =>
      simp only [step, hP]
      exact applyEffects_quiet _ _ _ hA hP
  | visibilityChange hidden =>
      cases hidden
      · exact applyEffects_quiet _ _ _ hA hP
      · exact applyEffects_quiet _ _ _ rfl hP
  | pulseEnd => exact applyEffects_quiet _ _ _ hA hP

theorem firesAuto_of_quiet (s : WState) (e : Event) (τ : ℚ)
    (hq : quiet s = true) : firesAuto s e τ = false := by
  obtain ⟨hA, hP⟩ := quiet_parts s hq
  unfold firesAuto
  cases e <;> rw [hP]

theorem neverFires_of_quiet (s : WState) (es : List (Event × ℚ))
    (hq : quiet s = true) (hm : ∀ p ∈ es, isManualGen p.1 = false) :
    neverFires s es = true := by
  induction es generalizing s with
  | nil => rfl
  | cons p rest ih =>
      rw [neverFires]
      rw [firesAuto_of_quiet s p.1 p.2 hq]
      simp only [Bool.not_false, Bool.true_and]
      exact ih (step s p.1 p.2)
        (quiet_step s p.1 p.2 hq (hm p (List.mem_cons_self p rest)))
        (fun x hx => hm x (List.mem_cons_of_mem p hx))

theorem stop_quiet (s : WState) (τ : ℚ) (hI : Invb s = true) :
    quiet (step s .stop τ) = true := by
  by_cases hA : s.isAutoGenerating
  · simp only [step, applyEffects]
    rw [if_neg (by simp [hA])]
    exact runTimerEffect_quiet_of_not_auto _ τ rfl
  · have hP : s.pending = none := Invb_none_of_not_auto s hI (by simpa using hA)
    exact applyEffects_quiet _ _ _ rfl hP

theorem settimer_nonpos_quiet (s : WState) (τ : ℚ) (q : Option ℚ) (dl : ℚ)
    (hI : Invb s = true) (hp : s.pending = some dl) (hq : q.getD 0 ≤ 0) :
    quiet (step s (.setTimer q) τ) = true := by
  obtain ⟨hA, ht⟩ := Invb_pending s hI dl hp
  have hne : q ≠ s.timer := by
    intro h
    rw [h] at hq
    exact absurd ht (not_lt.mpr hq)
  simp only [step, applyEffects]
  rw [if_neg (by intro h; exact hne h.1)]
  exact runTimerEffect_quiet_of_nonpos _ τ hq

theorem Invb_initState (τ : ℚ) : Invb (initState τ) = true := rfl

theorem Invb_congr (a b : WState) (hp : a.pending = b.pending)
    (hA : a.isAutoGenerating = b.isAutoGenerating) (ht : a.timer = b.timer) :
    Invb a = Invb b := by
  unfold Invb
  rw [hp, hA, ht]

theorem Invb_runTimerEffect (s : WState) (τ : ℚ) :
    Invb (runTimerEffect s τ) = true := by
  rw [runTimerEffect_eq]
  by_cases ht : s.timer.getD 0 ≤ 0
  · simp [Invb, ht]
  · by_cases hA : s.isAutoGenerating
    · simp [Invb, ht, hA, not_le.mp ht]
    · simp [Invb, ht, hA]

theorem Invb_applyEffects (old new : WState) (τ : ℚ) (h : Invb new = true) :
    Invb (applyEffects old new τ) = true := by
  unfold applyEffects
  split
  · exact h
  · exact Invb_runTimerEffect new τ

theorem Invb_genStep (s : WState) (d : List Nat) (ok : Bool) (τ : ℚ)
    (h : Invb s = true) : Invb (genStep s d ok τ) = true := by
  rw [Invb_congr (genStep s d ok τ) s (genStep_pending s d ok τ)
    (genStep_auto s d ok τ) (genStep_timer s d ok τ)]
  exact h

/-- The machine invariant holds in the initial state and is preserved by every
step, so the `Invb` hypotheses above describe every reachable state. -/
theorem Invb_step (s : WState) (e : Event) (τ : ℚ) (hI : Invb s = true) :
    Invb (step s e τ) = true := by
  cases e with
  | setMin w =>
      simp only [step]
      exact Invb_applyEffects _ _ τ hI
  | setMax w =>
      simp only [step]
      exact Invb_applyEffects _ _ τ hI
  | toggleAudio =>
      simp only [step]
      exact Invb_applyEffects _ _ τ hI
  | pulseEnd =>
      simp only [step]
      exact Invb_applyEffects _ _ τ hI
  | setTimer w =>
      simp only [step]
      unfold applyEffects
      split
      · rename_i h
        rw [Invb_congr { s with timer := w } s rfl rfl h.1]
        exact hI
      · exact Invb_runTimerEffect _ τ
  | stop =>
      simp only [step]
      by_cases hA : s.isAutoGenerating
      · unfold applyEffects
        rw [if_neg (by simp [hA])]
        exact Invb_runTimerEffect _ τ
      · have hP : s.pending = none :=
          Invb_none_of_not_auto s hI (by simpa using hA)
        unfold applyEffects
        split
        · simp [Invb, hP]
        · exact Invb_runTimerEffect _ τ
  | visibilityChange hidden =>
      cases hidden
      · simp only [step]
        rw [if_neg Bool.false_ne_true, applyEffects_self]
        exact hI
      · simp only [step]
        rw [if_pos trivial]
        by_cases hA : s.isAutoGenerating
        · unfold applyEffects
          rw [if_neg (by simp [hA])]
          exact Invb_runTimerEffect _ τ
        · have hP : s.pending = none :=
            Invb_none_of_not_auto s hI (by simpa using hA)
          unfold applyEffects
          split
          · simp [Invb, hP]
          · exact Invb_runTimerEffect _ τ
  | manualGenerate draws ok =>
      simp only [step]
      by_cases hc : 0 < s.timer.getD 0 ∧ ¬s.isAutoGenerating
      · rw [if_pos hc]
        refine Invb_applyEffects _ _ τ (Invb_genStep _ draws ok τ ?_)
        have hP : s.pending = none :=
          Invb_none_of_not_auto s hI (by simpa using hc.2)
        simp [Invb, hP]
      · rw [if_neg hc]
        exact Invb_applyEffects _ _ τ (Invb_genStep _ draws ok τ hI)
  | timerFire draws ok =>
      cases hp : s.pending with
      | none =>
          rw [step_timerFire_none s draws ok τ hp]
          exact hI
      | some dl =>
          by_cases hdl : τ = dl
          · rw [step_timerFire_hit s draws ok τ dl hp hdl]
            refine Invb_applyEffects _ _ τ (Invb_genStep _ draws ok τ ?_)
            simp [Invb]
          · rw [step_timerFire_miss s draws ok τ dl hp hdl]
            exact hI

/-- The concrete run `c6state`, evaluated: the delay change at time 1000
rescheduled the pending fire to `1000 + 3 * 1000 = 4000`. -/
theorem c6state_eq :
    c6state = { min := some 1, max := some 10, timer := some 3, audioEnabled := true,
                currentNumber := some 1, isGenerating := true, isAutoGenerating := true,
                lastTrigger := 0, pending := some 4000, log := [] } := by
  have h1 : step (initState 0) (.setTimer (some 5)) 0 =
      { min := some 1, max := some 10, timer := some 5, audioEnabled := true,
        currentNumber := none, isGenerating := false, isAutoGenerating := false,
        lastTrigger := 0, pending := none, log := [] } := by
    simp only [step, applyEffects, initState]
    rw [if_neg (by intro h; exact absurd h.1 (by decide))]
    rw [runTimerEffect_eq]
    norm_num
  have hg : generate (some 1) (some 10) none [0] = some 1 := by decide
  have h2 : step (step (initState 0) (.setTimer (some 5)) 0)
      (.manualGenerate [0] true) 0 =
      { min := some 1, max := some 10, timer := some 5, audioEnabled := true,
        currentNumber := some 1, isGenerating := true, isAutoGenerating := true,
        lastTrigger := 0, pending := some 5000, log := [] } := by
    rw [h1]
    simp only [step]
    rw [if_pos (by constructor; decide; decide)]
    rw [genStep_of_some _ [0] true 0 1 hg]
    simp only [applyEffects]
    rw [if_neg (by intro h; exact absurd h.2.2 (by decide))]
    rw [runTimerEffect_eq]
    norm_num
  have h3 : c6state =
      step (step (step (initState 0) (.setTimer (some 5)) 0)
        (.manualGenerate [0] true) 0) (.setTimer (some 3)) 1000 := rfl
  rw [h3, h2]
  simp only [step, applyEffects]
  rw [if_neg (by intro h; exact absurd h.1 (by decide))]
  rw [runTimerEffect_eq]
  norm_num

/-!
## The claims
-/

/-- C1: for every pair of integers `a, b` (empty fields treated as 0) and every
previous value, a value produced by a generation lies in
`[min(a,b), max(a,b)]`. -/
theorem generation_within_normalized_bounds (a b : Option Int)
    (prev : Option Int) (draws : List Nat) (v : Int)
    (hd : ∀ r ∈ draws, (r : Int) < normHi a b - normLo a b + 1)
    (h : generate a b prev draws = some v) :
    normLo a b ≤ v ∧ v ≤ normHi a b :=
  generate_range a b prev draws v hd h

theorem generation_within_normalized_bounds_witness :
    normLo (some 1) (some 10) ≤ 4 ∧ 4 ≤ normHi (some 1) (some 10) :=
  generation_within_normalized_bounds (some 1) (some 10) none [3] 4
    (by decide) (by decide)

/-- C2: with a non-degenerate normalized range and an in-range previous value,
a generation never returns the previous value; consequently a successive
generation — manual or automatic — in the widget never displays the same
number twice in a row. -/
theorem generation_never_equals_previous :
    (∀ (a b : Option Int) (p : Int) (draws : List Nat) (v : Int),
      normLo a b < normHi a b → normLo a b ≤ p → p ≤ normHi a b →
      generate a b (some p) draws = some v → v ≠ p)
    ∧ (∀ (s : WState) (τ : ℚ) (draws : List Nat) (ok : Bool) (p v : Int),
        normLo s.min s.max < normHi s.min s.max → s.currentNumber = some p →
        generate s.min s.max s.currentNumber draws = some v →
        (step s (.manualGenerate draws ok) τ).currentNumber = some v ∧ v ≠ p)
    ∧ (∀ (s : WState) (dl : ℚ) (draws : List Nat) (ok : Bool) (p v : Int),
        normLo s.min s.max < normHi s.min s.max → s.currentNumber = some p →
        generate s.min s.max s.currentNumber draws = some v →
        s.pending = some dl →
        (step s (.timerFire draws ok) dl).currentNumber = some v ∧ v ≠ p) := by
  refine ⟨?_, ?_, ?_⟩
  · intro a b p draws v hlt _ _ hgen
    exact generate_ne_prev a b p draws v hlt hgen
  · intro s τ draws ok p v hlt hcn hgen
    refine ⟨step_manual_currentNumber s τ draws ok v hgen, ?_⟩
    rw [hcn] at hgen
    exact generate_ne_prev _ _ p draws v hlt hgen
  · intro s dl draws ok p v hlt hcn hgen hP
    refine ⟨step_fire_currentNumber s dl draws ok v hP hgen, ?_⟩
    rw [hcn] at hgen
    exact generate_ne_prev _ _ p draws v hlt hgen

theorem generation_never_equals_previous_witness : (4 : Int) ≠ 5 :=
  generation_never_equals_previous.1 (some 1) (some 10) 5 [3] 4
    (by decide) (by decide) (by decide) (by decide)

/-- C3: when the normalized bounds coincide, a generation returns exactly that
bound, for every previous value (including the bound itself). -/
theorem generation_degenerate_returns_bound (a b : Option Int)
    (prev : Option Int) (draws : List Nat)
    (heq : normLo a b = normHi a b) :
    generate a b prev draws = some (normLo a b) :=
  generate_degenerate a b prev draws heq

theorem generation_degenerate_returns_bound_witness :
    generate (some 7) (some 7) (some 7) [0, 0] = some (normLo (some 7) (some 7)) :=
  generation_degenerate_returns_bound (some 7) (some 7) (some 7) [0, 0]
    (by decide)

/-- C4: the manual generate action always produces a number immediately; when
the current delay is positive and auto-mode is off it additionally activates
auto-mode, and when the delay is non-positive the auto-mode flag stays off. -/
theorem manual_generate_behavior (s : WState) (τ : ℚ) (draws : List Nat)
    (ok : Bool) (v : Int)
    (hgen : generate s.min s.max s.currentNumber draws = some v) :
    (step s (.manualGenerate draws ok) τ).currentNumber = some v
    ∧ (0 < s.timer.getD 0 → s.isAutoGenerating = false →
        (step s (.manualGenerate draws ok) τ).isAutoGenerating = true)
    ∧ (s.timer.getD 0 ≤ 0 → s.isAutoGenerating = false →
        (step s (.manualGenerate draws ok) τ).isAutoGenerating = false) := by
  refine ⟨step_manual_currentNumber s τ draws ok v hgen, ?_, ?_⟩
  · intro ht hA
    simp only [step]
    rw [if_pos ⟨ht, by simp [hA]⟩]
    have hauto : (genStep { s with isAutoGenerating := true } draws ok τ).isAutoGenerating
        = true := by
      rw [genStep_auto]
    have htim : (genStep { s with isAutoGenerating := true } draws ok τ).timer
        = s.timer := by
      rw [genStep_timer]
    unfold applyEffects
    rw [if_neg (by rw [hauto, hA]; intro h; exact Bool.noConfusion h.2.2)]
    rw [runTimerEffect_eq]
    simp only [htim, hauto]
    rw [if_neg (not_le.mpr ht)]
  · intro ht hA
    simp only [step]
    rw [if_neg (fun h => absurd ht (not_le.mpr h.1))]
    have hauto : (genStep s draws ok τ).isAutoGenerating = false := by
      rw [genStep_auto]; exact hA
    have htim : (genStep s draws ok τ).timer = s.timer := genStep_timer s draws ok τ
    unfold applyEffects
    split
    · exact hauto
    · rw [runTimerEffect_eq]
      simp only [htim, hauto]
      rw [if_pos ht]

theorem manual_generate_behavior_witness :
    (step { initState 0 with timer := some 2 } (.manualGenerate [2] true) 5).currentNumber
        = some 3
    ∧ (0 < ({ initState 0 with timer := some 2 } : WState).timer.getD 0 →
        ({ initState 0 with timer := some 2 } : WState).isAutoGenerating = false →
        (step { initState 0 with timer := some 2 }
          (.manualGenerate [2] true) 5).isAutoGenerating = true)
    ∧ (({ initState 0 with timer := some 2 } : WState).timer.getD 0 ≤ 0 →
        ({ initState 0 with timer := some 2 } : WState).isAutoGenerating = false →
        (step { initState 0 with timer := some 2 }
          (.manualGenerate [2] true) 5).isAutoGenerating = false) :=
  manual_generate_behavior { initState 0 with timer := some 2 } 5 [2] true 3
    (by decide)

/-- C5: the stop action, or the delay becoming non-positive while a repeat is
pending, leaves the widget with no pending timeout and auto-mode off, and from
that point no automatic generation ever occurs along any continuation that
contains no manual generate action (the only action that can restart
auto-mode). -/
theorem stop_or_nonpositive_delay_cancels (s : WState) (τ : ℚ)
    (es : List (Event × ℚ)) (hI : Invb s = true)
    (hes : ∀ p ∈ es, isManualGen p.1 = false) :
    (quiet (step s .stop τ) = true ∧ neverFires (step s .stop τ) es = true)
    ∧ (∀ q dl, s.pending = some dl → q.getD 0 ≤ 0 →
        quiet (step s (.setTimer q) τ) = true
        ∧ neverFires (step s (.setTimer q) τ) es = true) := by
  refine ⟨⟨stop_quiet s τ hI, ?_⟩,
    fun q dl hp hq => ⟨settimer_nonpos_quiet s τ q dl hI hp hq, ?_⟩⟩
  · exact neverFires_of_quiet _ es (stop_quiet s τ hI) hes
  · exact neverFires_of_quiet _ es (settimer_nonpos_quiet s τ q dl hI hp hq) hes

theorem stop_or_nonpositive_delay_cancels_witness :
    (quiet (step exampleAuto .stop 1) = true
      ∧ neverFires (step exampleAuto .stop 1)
          [(.timerFire [0] true, 5), (.setMin (some 3), 6)] = true)
    ∧ (∀ q dl, exampleAuto.pending = some dl → q.getD 0 ≤ 0 →
        quiet (step exampleAuto (.setTimer q) 1) = true
        ∧ neverFires (step exampleAuto (.setTimer q) 1)
            [(.timerFire [0] true, 5), (.setMin (some 3), 6)] = true) :=
  stop_or_nonpositive_delay_cancels exampleAuto 1
    [(.timerFire [0] true, 5), (.setMin (some 3), 6)] (by decide) (by decide)

/-- C6 (counterexample): in the concrete run `c6state` — generate at time 0
with delay 5, change the delay to 3 at time 1000 — auto-mode is active with
`lastTrigger = 0` and delay 3, yet no fire is possible at
`lastTrigger + delay` (time 3000): the pending deadline is 4000, measured from
the delay change, not from the last generation. -/
theorem deadline_formula_counterexample :
    c6state.isAutoGenerating = true ∧ c6state.lastTrigger = 0
    ∧ c6state.timer = some 3
    ∧ firesAuto c6state (.timerFire [1] true)
        (c6state.lastTrigger + c6state.timer.getD 0 * 1000) = false
    ∧ c6state.pending = some 4000 := by
  rw [c6state_eq]
  refine ⟨rfl, rfl, rfl, ?_, rfl⟩
  simp only [firesAuto]
  norm_num

/-- C6 (amended): a fire scheduled by a generation occurs at deadline =
last-trigger-timestamp + delay, i.e. relative to the instant the previous
number was produced; changing the delay mid-cycle keeps auto-mode active and
changes only the pending deadline, which is re-anchored to the instant of the
change (change-time + new delay), not to the last trigger. -/
theorem reschedule_semantics_amended (s : WState) (τ : ℚ) :
    (∀ draws ok v, s.pending = some τ → s.isAutoGenerating = true →
      0 < s.timer.getD 0 → τ ≠ s.lastTrigger →
      generate s.min s.max s.currentNumber draws = some v →
      (step s (.timerFire draws ok) τ).lastTrigger = τ
      ∧ (step s (.timerFire draws ok) τ).pending =
          some ((step s (.timerFire draws ok) τ).lastTrigger
            + (step s (.timerFire draws ok) τ).timer.getD 0 * 1000))
    ∧ (∀ q, 0 < q → some q ≠ s.timer → s.isAutoGenerating = true →
      (step s (.setTimer (some q)) τ).isAutoGenerating = true
      ∧ (step s (.setTimer (some q)) τ).pending = some (τ + q * 1000)
      ∧ (step s (.setTimer (some q)) τ).min = s.min
      ∧ (step s (.setTimer (some q)) τ).max = s.max
      ∧ (step s (.setTimer (some q)) τ).currentNumber = s.currentNumber
      ∧ (step s (.setTimer (some q)) τ).lastTrigger = s.lastTrigger) := by
  constructor
  · intro draws ok v hP hA ht hneq hgen
    simp only [step, hP]
    rw [if_pos trivial]
    have h2 : (genStep { s with pending := none } draws ok τ).lastTrigger = τ :=
      genStep_lastTrigger _ draws ok τ v hgen
    have h3 : (genStep { s with pending := none } draws ok τ).timer = s.timer :=
      genStep_timer _ draws ok τ
    have h4 : (genStep { s with pending := none } draws ok τ).isAutoGenerating
        = true := by
      rw [genStep_auto]; exact hA
    unfold applyEffects
    rw [if_neg (by rw [h2]; intro h; exact hneq h.2.1)]
    rw [runTimerEffect_eq]
    have hlt' : ¬(s.timer.getD 0 ≤ 0) := not_le.mpr ht
    simp [h2, h3, h4, hlt']
  · intro q hq hne hA
    simp only [step, applyEffects]
    rw [if_neg (fun h => hne h.1)]
    rw [runTimerEffect_eq]
    have hq' : ¬((q : ℚ) ≤ 0) := not_le.mpr hq
    simp [hq', hA]

theorem reschedule_semantics_amended_witness :
    ((step exampleAuto (.timerFire [0] true) 5).lastTrigger = 5
      ∧ (step exampleAuto (.timerFire [0] true) 5).pending =
          some ((step exampleAuto (.timerFire [0] true) 5).lastTrigger
            + (step exampleAuto (.timerFire [0] true) 5).timer.getD 0 * 1000))
    ∧ ((step exampleAuto (.setTimer (some 3)) 5).isAutoGenerating = true
      ∧ (step exampleAuto (.setTimer (some 3)) 5).pending = some (5 + 3 * 1000)) :=
  ⟨(reschedule_semantics_amended exampleAuto 5).1 [0] true 1 rfl rfl
      (by decide) (by decide) (by decide),
    ⟨((reschedule_semantics_amended exampleAuto 5).2 3 (by decide) (by decide) rfl).1,
      ((reschedule_semantics_amended exampleAuto 5).2 3 (by decide) (by decide) rfl).2.1⟩⟩

/-- C7: while a repeat is pending, changing min or max leaves auto-mode and
the pending deadline untouched, changing the delay to a positive value keeps
auto-mode active with a timeout still pending, and the fire computes its
number from the state current at fire time (min, max and previous number are
read live, never from a snapshot). -/
theorem live_values_while_scheduled (s : WState) (dl τ : ℚ)
    (hA : s.isAutoGenerating = true) (hP : s.pending = some dl) :
    (∀ w, (step s (.setMin w) τ).isAutoGenerating = true
        ∧ (step s (.setMin w) τ).pending = some dl)
    ∧ (∀ w, (step s (.setMax w) τ).isAutoGenerating = true
        ∧ (step s (.setMax w) τ).pending = some dl)
    ∧ (∀ q, 0 < q → (step s (.setTimer (some q)) τ).isAutoGenerating = true
        ∧ (step s (.setTimer (some q)) τ).pending ≠ none)
    ∧ (∀ draws ok v, generate s.min s.max s.currentNumber draws = some v →
        (step s (.timerFire draws ok) dl).currentNumber = some v) := by
  refine ⟨?_, ?_, ?_, ?_⟩
  · intro w
    simp only [step, applyEffects]
    rw [if_pos ⟨trivial, trivial, trivial⟩]
    exact ⟨hA, hP⟩
  · intro w
    simp only [step, applyEffects]
    rw [if_pos ⟨trivial, trivial, trivial⟩]
    exact ⟨hA, hP⟩
  · intro q hq
    by_cases he : (some q : Option ℚ) = s.timer
    · simp only [step, applyEffects]
      rw [if_pos ⟨he, trivial, trivial⟩]
      refine ⟨hA, ?_⟩
      rw [hP]
      exact Option.noConfusion
    · simp only [step, applyEffects]
      rw [if_neg (fun h => he h.1)]
      rw [runTimerEffect_eq]
      constructor
      · simp only [Option.getD_some]
        rw [if_neg (not_le.mpr hq)]
        exact hA
      · simp only [Option.getD_some]
        rw [if_neg (not_le.mpr hq), if_pos hA]
        exact Option.noConfusion
  · intro draws ok v hgen
    exact step_fire_currentNumber s dl draws ok v hP hgen

theorem live_values_while_scheduled_witness :
    (∀ w, (step exampleAuto (.setMin w) 1).isAutoGenerating = true
        ∧ (step exampleAuto (.setMin w) 1).pending = some 5)
    ∧ (∀ w, (step exampleAuto (.setMax w) 1).isAutoGenerating = true
        ∧ (step exampleAuto (.setMax w) 1).pending = some 5)
    ∧ (∀ q, 0 < q → (step exampleAuto (.setTimer (some q)) 1).isAutoGenerating = true
        ∧ (step exampleAuto (.setTimer (some q)) 1).pending ≠ none)
    ∧ (∀ draws ok v,
        generate exampleAuto.min exampleAuto.max exampleAuto.currentNumber draws
          = some v →
        (step exampleAuto (.timerFire draws ok) 5).currentNumber = some v) :=
  live_values_while_scheduled exampleAuto 5 1 rfl rfl

/-- C8: a failure of the audio adapter during a generation is caught inside
`playBeep` (nothing propagates), the diagnostic is appended to the log, and
the resulting widget state is otherwise identical to a successful-audio run:
the generation still completes with the same displayed number. -/
theorem audio_failure_logged_and_harmless (s : WState) (τ : ℚ)
    (draws : List Nat) (v : Int)
    (hgen : generate s.min s.max s.currentNumber draws = some v) :
    coreView (step s (.manualGenerate draws false) τ)
      = coreView (step s (.manualGenerate draws true) τ)
    ∧ (∀ ok, (step s (.manualGenerate draws ok) τ).currentNumber = some v)
    ∧ (s.audioEnabled = true →
        (step s (.manualGenerate draws false) τ).log
          = s.log ++ ["Audio playback failed"])
    ∧ (∀ ok log', (playBeep ok log').2 = false)
    ∧ (∀ dl, s.pending = some dl →
        coreView (step s (.timerFire draws false) dl)
          = coreView (step s (.timerFire draws true) dl)) := by
  refine ⟨?_, ?_, ?_, playBeep_snd, ?_⟩
  · simp only [step]
    by_cases hc : 0 < s.timer.getD 0 ∧ ¬s.isAutoGenerating
    · rw [if_pos hc]
      exact applyEffects_core_congr _ _ _ τ (genStep_ok_core _ draws τ)
    · rw [if_neg hc]
      exact applyEffects_core_congr _ _ _ τ (genStep_ok_core _ draws τ)
  · intro ok
    exact step_manual_currentNumber s τ draws ok v hgen
  · intro hAudio
    simp only [step]
    rw [applyEffects_log]
    by_cases hc : 0 < s.timer.getD 0 ∧ ¬s.isAutoGenerating
    · rw [if_pos hc, genStep_eq, hgen]
      simp [hAudio]
    · rw [if_neg hc, genStep_eq, hgen]
      simp [hAudio]
  · intro dl hp
    rw [step_timerFire_hit s draws false dl dl hp rfl,
      step_timerFire_hit s draws true dl dl hp rfl]
    exact applyEffects_core_congr _ _ _ dl (genStep_ok_core _ draws dl)

theorem audio_failure_logged_and_harmless_witness :
    coreView (step (initState 0) (.manualGenerate [2] false) 1)
      = coreView (step (initState 0) (.manualGenerate [2] true) 1)
    ∧ (∀ ok, (step (initState 0) (.manualGenerate [2] ok) 1).currentNumber = some 3)
    ∧ ((initState 0).audioEnabled = true →
        (step (initState 0) (.manualGenerate [2] false) 1).log
          = (initState 0).log ++ ["Audio playback failed"])
    ∧ (∀ ok log', (playBeep ok log').2 = false)
    ∧ (∀ dl, (initState 0).pending = some dl →
        coreView (step (initState 0) (.timerFire [2] false) dl)
          = coreView (step (initState 0) (.timerFire [2] true) dl)) :=
  audio_failure_logged_and_harmless (initState 0) 1 [2] 3 (by decide)

/-- C9: every operation preserves the invariant that the displayed number lies
within the normalized bounds in effect at the generation that last set it:
whenever a step changes `currentNumber`, the new value lies within the bounds
normalized from the state at that step. -/
theorem current_number_within_generation_bounds (s : WState) (e : Event) (τ : ℚ)
    (hd : ∀ r ∈ drawsOf e, (r : Int) < normHi s.min s.max - normLo s.min s.max + 1)
    (hchange : (step s e τ).currentNumber ≠ s.currentNumber) :
    ∃ v, (step s e τ).currentNumber = some v
      ∧ normLo s.min s.max ≤ v ∧ v ≤ normHi s.min s.max := by
  cases e with
  | setMin w =>
      rw [step, applyEffects_currentNumber] at hchange
      exact absurd rfl hchange
  | setMax w =>
      rw [step, applyEffects_currentNumber] at hchange
      exact absurd rfl hchange
  | setTimer w =>
      rw [step, applyEffects_currentNumber] at hchange
      exact absurd rfl hchange
  | toggleAudio =>
      rw [step, applyEffects_currentNumber] at hchange
      exact absurd rfl hchange
  | stop =>
      rw [step, applyEffects_currentNumber] at hchange
      exact absurd rfl hchange
  | pulseEnd =>
      rw [step, applyEffects_currentNumber] at hchange
      exact absurd rfl hchange
  | visibilityChange hidden =>
      rw [step, applyEffects_currentNumber] at hchange
      cases hidden
      · exact absurd rfl hchange
      · exact absurd rfl hchange
  | manualGenerate draws ok =>
      rw [step, applyEffects_currentNumber] at hchange ⊢
      by_cases hc : 0 < s.timer.getD 0 ∧ ¬s.isAutoGenerating
      · rw [if_pos hc] at hchange ⊢
        rcases genStep_currentNumber_cases { s with isAutoGenerating := true }
            draws ok τ with h | ⟨v, hg, hcN⟩
        · exact absurd h hchange
        · exact ⟨v, hcN, generate_range s.min s.max s.currentNumber draws v hd hg⟩
      · rw [if_neg hc] at hchange ⊢
        rcases genStep_currentNumber_cases s draws ok τ with h | ⟨v, hg, hcN⟩
        · exact absurd h hchange
        · exact ⟨v, hcN, generate_range s.min s.max s.currentNumber draws v hd hg⟩
  | timerFire draws ok =>
      cases hp : s.pending with
      | none =>
          rw [step_timerFire_none s draws ok τ hp] at hchange
          exact absurd rfl hchange
      | some dl =>
          by_cases hdl : τ = dl
          · rw [step_timerFire_hit s draws ok τ dl hp hdl] at hchange ⊢
            rw [applyEffects_currentNumber] at hchange ⊢
            rcases genStep_currentNumber_cases { s with pending := none }
                draws ok τ with h | ⟨v, hg, hcN⟩
            · exact absurd h hchange
            · exact ⟨v, hcN, generate_range s.min s.max s.currentNumber draws v hd hg⟩
          · rw [step_timerFire_miss s draws ok τ dl hp hdl] at hchange
            exact absurd rfl hchange

theorem current_number_within_generation_bounds_witness :
    ∃ v, (step (initState 0) (.manualGenerate [2] true) 1).currentNumber = some v
      ∧ normLo (initState 0).min (initState 0).max ≤ v
      ∧ v ≤ normHi (initState 0).min (initState 0).max :=
  current_number_within_generation_bounds (initState 0) (.manualGenerate [2] true) 1
    (by decide)
    (by rw [step_manual_currentNumber (initState 0) 1 [2] true 3 (by decide)]; decide)

/-- C10: in the canonical variant, the moment the document becomes hidden the
widget force-stops auto-generation, whatever the current state. -/
theorem hidden_forces_auto_off (s : WState) (τ : ℚ) :
    (step s (.visibilityChange true) τ).isAutoGenerating = false := by
  simp only [step, applyEffects, if_pos]
  split
  · rfl
  · rw [runTimerEffect_eq]
    split <;> rfl
